import Mathlib

/-!
Verification of the SIMCom A7680C GPS tracker firmware (Pi Pico sketch).

The firmware's text processing is modelled over `List Char` (Arduino
`String` values), exact rationals `ℚ` stand for the sketch's `float`
arithmetic, and the cooperative main loop is modelled as a step function
on an explicit state record driven by one environment record per
iteration (modem responses, the millisecond clock, and the outcomes of
the SMS/HTTP sub-protocols).  Time inside a single call is abstracted to
the value of the clock at the start of that call.  Clock arithmetic: the
sketch compares `millis() - lastX < DELAY` with `millis()` an
`unsigned long` and `lastX` a `long`, so the subtraction is 32-bit
unsigned.  The poll and HTTP-post timestamps are only ever assigned the
current time, so for them the unbounded-integer model below agrees with
the unsigned code (the ~49-day counter wrap is out of scope); the
`tryWakeModule` throttle is different — its `lastRetryTime` is set 8
seconds into the *future* by the max-retry branch, which makes the
unsigned wrap observable, so that one guard is modelled with an explicit
reduction modulo `2^32`.
-/

namespace GpsTracker

/-- C `isspace` in the default locale: the characters removed by Arduino
`String::trim`. -/
def isSpaceCh (c : Char) : Bool :=
  c = ' ' || c = '\t' || c = '\n' || c = Char.ofNat 11 || c = Char.ofNat 12 || c = '\r'

/-- Arduino `String::trim`: drop whitespace from both ends. -/
def trimChars (s : List Char) : List Char :=
  ((s.dropWhile isSpaceCh).reverse.dropWhile isSpaceCh).reverse

/-- Arduino `String::indexOf(needle)`: index of the first occurrence of
`needle` as a contiguous substring, `none` when absent. -/
def findSub (needle : List Char) : List Char → Option Nat
  | [] => if needle = [] then some 0 else none
  | c :: rest =>
    if needle.isPrefixOf (c :: rest) then some 0
    else (findSub needle rest).map (· + 1)

/-- `indexOf(needle) != -1` in the sketch. -/
def containsSub (needle hay : List Char) : Bool :=
  (findSub needle hay).isSome

/-- The comma-splitting loops of `parseCgpsInfo` / `getSatelliteCount`:
split on `','`, stopping after at most `cap` fields (extra text beyond
the `cap`-th comma is dropped, exactly as the `fieldCount < cap` guard
does in the sketch). -/
def splitCommaCap : Nat → List Char → List (List Char)
  | 0, _ => []
  | _ + 1, [] => [[]]
  | n + 1, c :: rest =>
    if c = ',' then [] :: splitCommaCap n rest
    else
      match splitCommaCap (n + 1) rest with
      | [] => [[c]]
      | f :: fs => (c :: f) :: fs

def isDigitCh (c : Char) : Bool :=
  '0' ≤ c && c ≤ '9'

def digitVal (c : Char) : Nat :=
  c.toNat - 48

def natOfDigits (l : List Char) : Nat :=
  l.foldl (fun a c => 10 * a + digitVal c) 0

/-- Does the field text start with a minus sign? -/
def floatNeg (s : List Char) : Bool :=
  s.head? = some '-'

/-- The field text with a leading sign stripped. -/
def floatBody (s : List Char) : List Char :=
  if s.head? = some '-' || s.head? = some '+' then s.drop 1 else s

/-- The integer-part digits of the field text. -/
def floatIntDigits (s : List Char) : List Char :=
  (floatBody s).takeWhile isDigitCh

/-- The fraction digits of the field text (after a decimal point). -/
def floatFracDigits (s : List Char) : List Char :=
  if ((floatBody s).drop (floatIntDigits s).length).head? = some '.' then
    (((floatBody s).drop (floatIntDigits s).length).drop 1).takeWhile isDigitCh
  else []

/-- Model of Arduino `String::toFloat` (C `strtod` on the already-trimmed
field text) as an exact rational: optional sign, integer digits, optional
fraction digits; anything unparsable yields `0`.  Exponents are not
modelled (they never occur in the modem's fields). -/
def parseFloatQ (s : List Char) : ℚ :=
  if (floatIntDigits s).isEmpty && (floatFracDigits s).isEmpty then 0
  else
    let mag : ℚ := (natOfDigits (floatIntDigits s) : ℚ) +
      (natOfDigits (floatFracDigits s) : ℚ) / (10 : ℚ) ^ (floatFracDigits s).length
    if floatNeg s then -mag else mag

/-- Model of Arduino `String::toInt` (C `atol`): optional sign then
digits; `0` when no digits. -/
def parseIntZ (s : List Char) : Int :=
  let neg := s.head? = some '-'
  let rest := if s.head? = some '-' || s.head? = some '+' then s.drop 1 else s
  let mag : Int := (natOfDigits (rest.takeWhile isDigitCh) : Int)
  if neg then -mag else mag

/-- The C cast `(int)q`: truncation toward zero. -/
def truncQ (q : ℚ) : Int :=
  if q < 0 then -Rat.floor (-q) else Rat.floor q

/-- The `GpsData` struct of the sketch; `float` fields are exact
rationals, `String` fields are character lists. -/
structure GpsData where
  latitude : ℚ
  longitude : ℚ
  altitude : ℚ
  speedKnots : ℚ
  course : ℚ
  date : List Char
  utcTime : List Char
  valid : Bool
deriving DecidableEq

/-- `GpsData data = {0, 0, 0, 0, 0, "", "", false}`. -/
def gpsDefault : GpsData :=
  ⟨0, 0, 0, 0, 0, [], [], false⟩

def cgpsMarker : List Char := "+CGPSINFO:".data

/-- The marked line of a `+CGPSINFO` response: text after the marker, cut
at the first line break, trimmed. -/
def cgpsPayload (raw : List Char) (st : Nat) : List Char :=
  trimChars ((raw.drop (st + 10)).takeWhile (· ≠ '\n'))

/-- The (at most 9) trimmed comma-separated fields of the marked line. -/
def cgpsFields (raw : List Char) (st : Nat) : List (List Char) :=
  (splitCommaCap 9 (cgpsPayload raw st)).map trimChars

/-- The record built by the all-fields-present branch of
`parseCgpsInfo`: degrees-and-minutes conversion with truncating casts,
hemisphere sign flips, plain-float altitude/speed/course, raw date/time
strings, validity flag set. -/
def cgpsBuild (raw : List Char) (st : Nat) : GpsData :=
  let f : Nat → List Char := fun i => (cgpsFields raw st).getD i []
  let rawLat := parseFloatQ (f 0)
  let latDeg : Int := truncQ (rawLat / 100)
  let lat0 : ℚ := latDeg + (rawLat - latDeg * 100) / 60
  let lat : ℚ := if f 1 = ['S'] then -lat0 else lat0
  let rawLon := parseFloatQ (f 2)
  let lonDeg : Int := truncQ (rawLon / 100)
  let lon0 : ℚ := lonDeg + (rawLon - lonDeg * 100) / 60
  let lon : ℚ := if f 3 = ['W'] then -lon0 else lon0
  { latitude := lat, longitude := lon, altitude := parseFloatQ (f 6),
    speedKnots := parseFloatQ (f 7), course := parseFloatQ (f 8),
    date := f 4, utcTime := f 5, valid := true }

/-- `parseCgpsInfo` from the sketch. -/
def parseCgpsInfo (raw : List Char) : GpsData :=
  match findSub cgpsMarker raw with
  | none => gpsDefault
  | some st =>
    if (cgpsFields raw st).length < 9 || ((cgpsFields raw st).headD []).isEmpty then gpsDefault
    else cgpsBuild raw st

def cgnssMarker : List Char := "+CGNSSINFO:".data

/-- The trimmed payload of a `+CGNSSINFO` response (no line-break cut in
the sketch's `getSatelliteCount`). -/
def cgnssPayload (raw : List Char) (idx : Nat) : List Char :=
  trimChars (raw.drop (idx + 11))

/-- The (at most 6) trimmed comma-separated fields of the payload. -/
def cgnssFields (raw : List Char) (idx : Nat) : List (List Char) :=
  (splitCommaCap 6 (cgnssPayload raw idx)).map trimChars

/-- The parsing part of `getSatelliteCount` from the sketch, applied to
the raw text returned by `sendAT("AT+CGNSSINFO")`. -/
def satCountOfRaw (raw : List Char) : Int :=
  match findSub cgnssMarker raw with
  | none => -1
  | some idx =>
    if (cgnssFields raw idx).length < 2 then -1
    else if ((cgnssFields raw idx).getD 0 []).isEmpty then 0
    else if ((cgnssFields raw idx).getD 1 []).isEmpty then 0
    else parseIntZ ((cgnssFields raw idx).getD 1 [])

/-! ### Serial transaction engine (`sendAT`)

The read loop of `sendAT` is modelled in discrete ticks: one tick is one
iteration of the `while (millis() - start < timeout)` loop.  `sched t`
gives the bytes that become available during tick `t`; `timeout` and
`silence` are the overall timeout and the inactivity window (`SILENCE_MS`)
measured in ticks. -/

/-- One run of the `sendAT` read loop: `fuel` ticks remain before the
overall timeout, `t` is the current tick, `resp` the bytes accumulated so
far and `lastByte` the tick at which the last byte arrived.  The loop
breaks once something has been received and `silence` ticks have passed
with nothing new, exactly like the sketch's
`response.length() > 0 && millis() - lastByteTime >= SILENCE_MS`. -/
def sendATAux (sched : Nat → List Char) (silence : Nat) :
    Nat → Nat → List Char → Nat → List Char
  | 0, _, resp, _ => resp
  | fuel + 1, t, resp, lastByte =>
    let resp2 := resp ++ sched t
    let lb2 := if (sched t).isEmpty then lastByte else t
    if !resp2.isEmpty && silence ≤ t - lb2 then resp2
    else sendATAux sched silence fuel (t + 1) resp2 lb2

/-- The bytes accumulated by one `sendAT` exchange, before trimming. -/
def sendATRaw (sched : Nat → List Char) (timeout silence : Nat) : List Char :=
  sendATAux sched silence timeout 0 [] 0

/-- `sendAT`'s return value: the accumulated bytes, trimmed. -/
def sendATModel (sched : Nat → List Char) (timeout silence : Nat) : List Char :=
  trimChars (sendATRaw sched timeout silence)

/-! ### HTTP POST result-wait phase -/

def httpActionMarker : List Char := "+HTTPACTION:".data

def httpAction1 : List Char := "+HTTPACTION: 1,".data

def httpAction200 : List Char := "+HTTPACTION: 1,200".data

def httpAction201 : List Char := "+HTTPACTION: 1,201".data

/-- The result-wait loop of `httpPost` (step 6): accumulate bytes each
tick until the accumulated text contains `+HTTPACTION:` or the 15-second
timeout (`fuel` ticks) elapses. -/
def accumUntil (sched : Nat → List Char) (needle : List Char) :
    Nat → Nat → List Char → List Char
  | 0, _, resp => resp
  | fuel + 1, t, resp =>
    let resp2 := resp ++ sched t
    if containsSub needle resp2 then resp2
    else accumUntil sched needle fuel (t + 1) resp2

/-- The status-classification tail of `httpPost`: `true` on a
`+HTTPACTION: 1,200` / `...,201` token, otherwise `false`, extracting the
status digits after `+HTTPACTION: 1,` (up to the next comma) when that
marker is present. -/
def classifyHttpAction (resp : List Char) : Bool × Option (List Char) :=
  if containsSub httpAction200 resp || containsSub httpAction201 resp then (true, none)
  else
    match findSub httpAction1 resp with
    | some i => (false, some ((resp.drop (i + 15)).takeWhile (· ≠ ',')))
    | none => (false, none)

/-- The whole result-wait phase: wait for the marker, then classify. -/
def httpPostResultPhase (sched : Nat → List Char) (timeout : Nat) : Bool × Option (List Char) :=
  classifyHttpAction (accumUntil sched httpActionMarker timeout 0 [])

/-! ### The main loop as a state machine

`SysState` collects the sketch's global mutable state (including the two
`static` locals of `tryWakeModule`); `LoopEnv` is everything one
`loop()` iteration consumes from the outside world: the clock and the
modem's raw responses, plus the outcomes of the (internally modelled)
SMS/HTTP sub-protocols.  Observable side effects are recorded as
`Event`s. -/

def POLL_INTERVAL : Int := 5000

def MODULE_RETRY_MAX : Int := 10

def MODULE_RETRY_DELAY : Int := 2000

def SMS_FIX_INTERVAL : Int := 5

def HTTP_POST_INTERVAL : Int := 30000

def SMS_ENABLED : Bool := true

def HTTP_ENABLED : Bool := true

structure SysState where
  moduleReady : Bool
  smsSentBoot : Bool
  smsSentStart : Bool
  smsSentFix : Bool
  httpInitialized : Bool
  attempt : Int
  fixCount : Int
  lastPollTime : Int
  lastHttpPostTime : Int
  retryCount : Int
  lastRetryTime : Int
deriving DecidableEq

structure LoopEnv where
  millis : Int
  atRaw : List Char
  cgpsRaw : List Char
  cgnssRaw : List Char
  smsOk : Bool
  httpInitOk : Bool
  httpPostOk : Bool
deriving DecidableEq

inductive SmsKind where
  | boot
  | firstSat
  | firstFix
  | periodic
deriving DecidableEq

/-- Observable side effects of one loop iteration.  `sms k ok` is a
`sendSMS` attempt from the trigger site `k` whose transmission outcome
was `ok`; `gpsData g` is an invocation of the `onGpsData` hook;
`httpPosted g ok` is an `httpPost` whose JSON body was built from `g`. -/
inductive Event where
  | sms (k : SmsKind) (ok : Bool)
  | gpsData (g : GpsData)
  | httpPosted (g : GpsData) (ok : Bool)
deriving DecidableEq

def okToken : List Char := "OK".data

/-- The success branch of `tryWakeModule`: mark the module ready, send
the one-time boot SMS, power GNSS (log-only), then initialise HTTP
(`initHTTP` sets `httpInitialized` only when it succeeds and is a no-op
once the flag is set). -/
def wakeSuccess (env : LoopEnv) (s : SysState) : SysState × List Event :=
  let s1 : SysState := { s with moduleReady := true }
  let evs : List Event :=
    if s1.smsSentBoot = false then [Event.sms SmsKind.boot env.smsOk] else []
  let s2 : SysState :=
    if s1.smsSentBoot = false then { s1 with smsSentBoot := true } else s1
  let s3 : SysState :=
    if HTTP_ENABLED then { s2 with httpInitialized := s2.httpInitialized || env.httpInitOk }
    else s2
  (s3, evs)

/-- The failure branch of `tryWakeModule` (after the attempt counter was
bumped): on reaching `MODULE_RETRY_MAX` reset the counter and push the
next probe 8 extra seconds into the future. -/
def wakeFailure (env : LoopEnv) (s : SysState) : SysState × List Event :=
  if MODULE_RETRY_MAX ≤ s.retryCount then
    ({ s with retryCount := 0, lastRetryTime := env.millis + 8000 }, [])
  else (s, [])

/-- `2^32`: the modulus of the sketch's `unsigned long` arithmetic. -/
def UINT32_MOD : Int := 4294967296

/-- `tryWakeModule` from the sketch.  Its throttle guard
`millis() - lastRetryTime < MODULE_RETRY_DELAY` subtracts an
`unsigned long` and a `long`, which C evaluates as a 32-bit unsigned
subtraction, modelled here as reduction modulo `2^32` (`Int.emod` with a
positive modulus is non-negative, matching the unsigned result).  This
matters because the max-retry branch stores `millis() + 8000` — a future
timestamp — into `lastRetryTime`. -/
def tryWakeModule (env : LoopEnv) (s : SysState) : SysState × List Event :=
  if (env.millis - s.lastRetryTime) % UINT32_MOD < MODULE_RETRY_DELAY then (s, [])
  else
    let s1 : SysState := { s with lastRetryTime := env.millis, retryCount := s.retryCount + 1 }
    if containsSub okToken env.atRaw then wakeSuccess env s1 else wakeFailure env s1

/-- The events produced by `onGpsData`: the hook invocation itself, plus
the periodic SMS when the (already incremented) fix count is a multiple
of `SMS_FIX_INTERVAL`. -/
def onGpsDataEvents (fixCount : Int) (data : GpsData) (smsOk : Bool) : List Event :=
  Event.gpsData data ::
    (if fixCount % SMS_FIX_INTERVAL = 0 then [Event.sms SmsKind.periodic smsOk] else [])

/-- The HTTP block at the end of the valid-fix branch: every
`HTTP_POST_INTERVAL` milliseconds, re-attempt `initHTTP` if needed and
post the fix if the session is ready. -/
def httpPhase (env : LoopEnv) (data : GpsData) (s : SysState) : SysState × List Event :=
  if HTTP_ENABLED && decide (HTTP_POST_INTERVAL ≤ env.millis - s.lastHttpPostTime) then
    let s1 : SysState := { s with lastHttpPostTime := env.millis }
    let s2 : SysState :=
      if s1.httpInitialized = false then { s1 with httpInitialized := env.httpInitOk } else s1
    if s2.httpInitialized then (s2, [Event.httpPosted data env.httpPostOk]) else (s2, [])
  else (s, [])

/-- The valid-fix branch of `loop()`: bump the fix counter, fire the
one-time first-fix SMS, call `onGpsData`, then the HTTP block. -/
def validFixStep (env : LoopEnv) (data : GpsData) (s : SysState) : SysState × List Event :=
  let s1 : SysState := { s with fixCount := s.fixCount + 1 }
  let fixEvs : List Event :=
    if s1.smsSentFix = false then [Event.sms SmsKind.firstFix env.smsOk] else []
  let s2 : SysState :=
    if s1.smsSentFix = false then { s1 with smsSentFix := true } else s1
  let dataEvs := onGpsDataEvents s2.fixCount data env.smsOk
  ((httpPhase env data s2).1, fixEvs ++ dataEvs ++ (httpPhase env data s2).2)

/-- The invalid-fix branch of `loop()`: query the satellite count and
fire the one-time first-satellite SMS when it is positive. -/
def invalidFixStep (env : LoopEnv) (s : SysState) : SysState × List Event :=
  let sats := satCountOfRaw env.cgnssRaw
  if s.smsSentStart = false && decide (0 < sats) then
    ({ s with smsSentStart := true }, [Event.sms SmsKind.firstSat env.smsOk])
  else (s, [])

/-- One poll tick of `loop()` after the interval guard passed:
`lastPollTime` and `attempt` were already updated by `loopStep`. -/
def pollStep (env : LoopEnv) (s : SysState) : SysState × List Event :=
  let data := parseCgpsInfo env.cgpsRaw
  if data.valid then validFixStep env data s else invalidFixStep env s

/-- One invocation of `loop()`. -/
def loopStep (env : LoopEnv) (s : SysState) : SysState × List Event :=
  if s.moduleReady = false then tryWakeModule env s
  else if POLL_INTERVAL ≤ env.millis - s.lastPollTime then
    pollStep env { s with lastPollTime := env.millis, attempt := s.attempt + 1 }
  else (s, [])

/-- A sequence of `loop()` invocations, collecting all events. -/
def runLoop : List LoopEnv → SysState → SysState × List Event
  | [], s => (s, [])
  | e :: rest, s =>
    ((runLoop rest (loopStep e s).1).1,
      (loopStep e s).2 ++ (runLoop rest (loopStep e s).1).2)

/-- The global-variable initial values of the sketch. -/
def initState : SysState :=
  { moduleReady := false, smsSentBoot := false, smsSentStart := false,
    smsSentFix := false, httpInitialized := false, attempt := 0, fixCount := 0,
    lastPollTime := -POLL_INTERVAL, lastHttpPostTime := -HTTP_POST_INTERVAL,
    retryCount := 0, lastRetryTime := -MODULE_RETRY_DELAY }

/-- How many SMS attempts from trigger site `k` a list of events holds. -/
def countSms (k : SmsKind) (evs : List Event) : Nat :=
  (evs.filter fun ev =>
    match ev with
    | Event.sms k2 _ => decide (k2 = k)
    | _ => false).length

/-! ### Infrastructure lemmas -/

theorem splitCommaCap_ne_nil (n : Nat) (s : List Char) : splitCommaCap (n + 1) s ≠ [] := by
  cases s with
  | nil => simp [splitCommaCap]
  | cons c rest =>
    by_cases hc : c = ','
    · simp [splitCommaCap, hc]
    · simp only [splitCommaCap, if_neg hc]
      cases h : splitCommaCap (n + 1) rest <;> simp

theorem splitCommaCap_length (n : Nat) (s : List Char) :
    (splitCommaCap (n + 1) s).length = min (n + 1) (s.count ',' + 1) := by
  induction s generalizing n with
  | nil => simp [splitCommaCap]
  | cons c rest ih =>
    by_cases hc : c = ','
    · subst hc
      cases n with
      | zero => simp [splitCommaCap, List.count_cons]
      | succ m =>
        simp only [splitCommaCap, if_pos rfl, List.length_cons, ih m, List.count_cons,
          beq_self_eq_true, if_true]
        omega
    · simp only [splitCommaCap, if_neg hc]
      have hne := splitCommaCap_ne_nil n rest
      cases h : splitCommaCap (n + 1) rest with
      | nil => exact absurd h hne
      | cons f fs =>
        have hlen := ih n
        rw [h] at hlen
        have hcnt : (c == ',') = false := by simp [hc]
        simp only [List.length_cons] at hlen ⊢
        simp [List.count_cons, hcnt, hlen]

theorem splitCommaCap_headD (n : Nat) (s : List Char) :
    (splitCommaCap (n + 1) s).headD [] = s.takeWhile (· ≠ ',') := by
  induction s generalizing n with
  | nil => simp [splitCommaCap]
  | cons c rest ih =>
    by_cases hc : c = ','
    · subst hc
      simp [splitCommaCap, List.takeWhile_cons]
    · simp only [splitCommaCap, if_neg hc]
      have hne := splitCommaCap_ne_nil n rest
      cases h : splitCommaCap (n + 1) rest with
      | nil => exact absurd h hne
      | cons f fs =>
        have hh := ih n
        rw [h] at hh
        simp only [List.headD_cons] at hh
        simp [List.takeWhile_cons, hc, hh]

theorem splitCommaCap_two (n : Nat) (s : List Char) (h : 1 ≤ s.count ',') :
    ∃ fs, splitCommaCap (n + 2) s =
        s.takeWhile (· ≠ ',') ::
          ((s.dropWhile (· ≠ ',')).drop 1).takeWhile (· ≠ ',') :: fs := by
  induction s generalizing n with
  | nil => simp at h
  | cons c rest ih =>
    by_cases hc : c = ','
    · subst hc
      have hne := splitCommaCap_ne_nil n rest
      cases hsp : splitCommaCap (n + 1) rest with
      | nil => exact absurd hsp hne
      | cons f fs =>
        have hh := splitCommaCap_headD n rest
        rw [hsp] at hh
        simp only [List.headD_cons] at hh
        refine ⟨fs, ?_⟩
        simp [splitCommaCap, hsp, List.dropWhile_cons, List.takeWhile_cons, hh]
    · have hcnt : (c == ',') = false := by simp [hc]
      have hrest : 1 ≤ rest.count ',' := by
        simpa [List.count_cons, hcnt] using h
      rcases ih n hrest with ⟨fs, hsp⟩
      refine ⟨fs, ?_⟩
      simp [splitCommaCap, if_neg hc, hsp, List.dropWhile_cons, List.takeWhile_cons, hc]

theorem parseCgpsInfo_step (raw : List Char) (st : Nat)
    (hf : findSub cgpsMarker raw = some st) :
    parseCgpsInfo raw =
      if (cgpsFields raw st).length < 9 || ((cgpsFields raw st).headD []).isEmpty then gpsDefault
      else cgpsBuild raw st := by
  unfold parseCgpsInfo
  rw [hf]

theorem parseCgpsInfo_none (raw : List Char)
    (hf : findSub cgpsMarker raw = none) : parseCgpsInfo raw = gpsDefault := by
  unfold parseCgpsInfo
  rw [hf]

theorem satCountOfRaw_step (raw : List Char) (idx : Nat)
    (hf : findSub cgnssMarker raw = some idx) :
    satCountOfRaw raw =
      (if (cgnssFields raw idx).length < 2 then -1
       else if ((cgnssFields raw idx).getD 0 []).isEmpty then 0
       else if ((cgnssFields raw idx).getD 1 []).isEmpty then 0
       else parseIntZ ((cgnssFields raw idx).getD 1 [])) := by
  unfold satCountOfRaw
  rw [hf]

theorem satCountOfRaw_none (raw : List Char)
    (hf : findSub cgnssMarker raw = none) : satCountOfRaw raw = -1 := by
  unfold satCountOfRaw
  rw [hf]

theorem trimChars_eq_nil_iff (s : List Char) :
    trimChars s = [] ↔ ∀ c ∈ s, isSpaceCh c = true := by
  unfold trimChars
  constructor
  · intro h c hc
    rw [List.reverse_eq_nil_iff, List.dropWhile_eq_nil_iff] at h
    have hs : c ∈ s.takeWhile isSpaceCh ++ s.dropWhile isSpaceCh := by
      rw [List.takeWhile_append_dropWhile]; exact hc
    rcases List.mem_append.mp hs with h1 | h2
    · exact List.mem_takeWhile_imp h1
    · exact h c (List.mem_reverse.mpr h2)
  · intro h
    have : s.dropWhile isSpaceCh = [] :=
      List.dropWhile_eq_nil_iff.mpr fun x hx => h x hx
    simp [this]

theorem findSub_eq_some (needle l : List Char) (i : Nat) (h : findSub needle l = some i) :
    needle.isPrefixOf (l.drop i) = true := by
  induction l generalizing i with
  | nil =>
    by_cases hn : needle = []
    · simp only [findSub, if_pos hn, Option.some.injEq] at h
      subst h
      simp [hn, List.isPrefixOf]
    · simp [findSub, hn] at h
  | cons c rest ih =>
    simp only [findSub] at h
    by_cases hp : needle.isPrefixOf (c :: rest) = true
    · rw [if_pos hp, Option.some.injEq] at h
      subst h
      simpa using hp
    · rw [if_neg hp, Option.map_eq_some'] at h
      rcases h with ⟨j, hj, hij⟩
      subst hij
      simpa using ih j hj

theorem findSub_isSome_iff (needle l : List Char) :
    (findSub needle l).isSome = true ↔ ∃ i, needle.isPrefixOf (l.drop i) = true := by
  induction l with
  | nil =>
    by_cases hn : needle = [] <;> simp [findSub, hn, List.isPrefixOf]
  | cons c rest ih =>
    by_cases hp : needle.isPrefixOf (c :: rest) = true
    · simp only [findSub, if_pos hp, Option.isSome_some, true_iff]
      exact ⟨0, by simpa using hp⟩
    · simp only [findSub, if_neg hp]
      constructor
      · intro hs
        have hr : (findSub needle rest).isSome = true := by
          cases hfr : findSub needle rest <;> simp [hfr] at hs ⊢
        rcases ih.mp hr with ⟨j, hj⟩
        exact ⟨j + 1, by simpa using hj⟩
      · rintro ⟨i, hi⟩
        cases i with
        | zero => exact absurd (by simpa using hi) hp
        | succ j =>
          have hr := ih.mpr ⟨j, by simpa using hi⟩
          cases hfr : findSub needle rest with
          | none => rw [hfr] at hr; simp at hr
          | some v => simp [hfr]

theorem containsSub_mono (a b l : List Char) (h : containsSub (a ++ b) l = true) :
    containsSub a l = true := by
  unfold containsSub at h ⊢
  rw [findSub_isSome_iff] at h ⊢
  rcases h with ⟨i, hi⟩
  refine ⟨i, ?_⟩
  rw [List.isPrefixOf_iff_prefix] at hi ⊢
  exact (List.prefix_append a b).trans hi

theorem findSub_self_append (c : Char) (n rest : List Char) :
    findSub (c :: n) ((c :: n) ++ rest) = some 0 := by
  show findSub (c :: n) (c :: (n ++ rest)) = some 0
  simp only [findSub]
  rw [if_pos]
  exact List.isPrefixOf_iff_prefix.mpr (List.prefix_append _ _)

theorem takeWhile_append_all (p : Char → Bool) (a : List Char) (x : Char) (b : List Char)
    (ha : ∀ c ∈ a, p c = true) (hx : p x = false) :
    (a ++ x :: b).takeWhile p = a := by
  induction a with
  | nil => simp [List.takeWhile_cons, hx]
  | cons c cs ih =>
    have hc := ha c (List.mem_cons_self c cs)
    simp only [List.cons_append, List.takeWhile_cons, hc, if_true]
    rw [ih fun d hd => ha d (List.mem_cons_of_mem c hd)]

theorem ratFloor_eq_intFloor (q : ℚ) : Rat.floor q = ⌊q⌋ :=
  rfl

theorem truncQ_eq_floor (q : ℚ) (h : 0 ≤ q) : truncQ q = ⌊q⌋ := by
  unfold truncQ
  rw [if_neg (not_lt.mpr h)]
  rfl

theorem parseFloatQ_nonneg (s : List Char) (h : ¬s.head? = some '-') :
    0 ≤ parseFloatQ s := by
  unfold parseFloatQ
  split_ifs with h1 h2
  · exact le_refl 0
  · exact absurd (by simpa [floatNeg] using h2) h
  · positivity

theorem findSub_append_left (needle rest : List Char) (h : needle ≠ []) :
    findSub needle (needle ++ rest) = some 0 := by
  cases needle with
  | nil => exact absurd rfl h
  | cons c n => exact findSub_self_append c n rest

theorem digit_ne_comma (c : Char) (h : isDigitCh c = true) : c ≠ ',' := by
  intro he
  subst he
  exact absurd h (by decide)

/-- An occurrence of `+HTTPACTION: 1,` followed by a 3-digit code inside
a well-formed result token `+HTTPACTION: 1,<code>,<len>` pins the code:
the token text contains `+HTTPACTION: 1,<code>` exactly when the status
field equals `<code>` (the `'+'` at position 0 is the only possible match
start because no later character of the token is `'+'`). -/
theorem contains_code_iff (code st post : List Char) (h3 : st.length = 3)
    (hc3 : code.length = 3) (hcd : ∀ c ∈ code, isDigitCh c = true)
    (hst : ∀ c ∈ st, isDigitCh c = true) (hpost : ∀ c ∈ post, isDigitCh c = true) :
    (containsSub (httpAction1 ++ code) (httpAction1 ++ st ++ ',' :: post) = true ↔ st = code) := by
  constructor
  · intro h
    rw [containsSub, findSub_isSome_iff] at h
    rcases h with ⟨i, hi⟩
    rw [List.isPrefixOf_iff_prefix] at hi
    cases i with
    | zero =>
      simp only [List.drop_zero] at hi
      rw [List.append_assoc, List.prefix_append_right_inj] at hi
      obtain ⟨a, b, c, rfl⟩ := List.length_eq_three.mp h3
      obtain ⟨a2, b2, c2, rfl⟩ := List.length_eq_three.mp hc3
      rcases hi with ⟨t, ht⟩
      simp only [List.cons_append, List.nil_append, List.cons.injEq] at ht
      obtain ⟨rfl, rfl, rfl, -⟩ := ht
      rfl
    | succ j =>
      exfalso
      have hplus : ('+' : Char) ∈ List.drop (j + 1) (httpAction1 ++ st ++ ',' :: post) :=
        hi.subset (List.mem_append.mpr (Or.inl (by decide)))
      have e : List.drop j (List.drop 1 (httpAction1 ++ st ++ ',' :: post)) =
          List.drop (j + 1) (httpAction1 ++ st ++ ',' :: post) := by
        rw [List.drop_drop, Nat.add_comm]
      rw [← e] at hplus
      have h1 : ('+' : Char) ∈ List.drop 1 (httpAction1 ++ st ++ ',' :: post) :=
        List.drop_subset _ _ hplus
      have e2 : List.drop 1 (httpAction1 ++ st ++ ',' :: post) =
          ("HTTPACTION: 1,".data ++ st) ++ ',' :: post := rfl
      rw [e2] at h1
      rcases List.mem_append.mp h1 with h2 | h2
      · rcases List.mem_append.mp h2 with h4 | h4
        · exact absurd h4 (by decide)
        · exact absurd (hst _ h4) (by decide)
      · rw [List.mem_cons] at h2
        rcases h2 with h5 | h5
        · exact absurd h5 (by decide)
        · exact absurd (hpost _ h5) (by decide)
  · intro h
    subst h
    rw [containsSub, findSub_append_left]
    · rfl
    · intro he
      have := congrArg List.length he
      simp at this
      exact absurd this.1 (by decide)

theorem sendATAux_no_bytes (sched : Nat → List Char) (silence : Nat) :
    ∀ (fuel t lastByte : Nat), (∀ u, t ≤ u → u < t + fuel → sched u = []) →
      sendATAux sched silence fuel t [] lastByte = [] := by
  intro fuel
  induction fuel with
  | zero => intro t lb h; rfl
  | succ n ih =>
    intro t lb h
    have h0 : sched t = [] := h t (le_refl t) (by omega)
    simp only [sendATAux, h0, List.append_nil, List.isEmpty_nil, Bool.not_true]
    simp only [Bool.false_and, Bool.false_eq_true, if_false]
    exact ih (t + 1) lb fun u hu1 hu2 => h u (by omega) (by omega)

/-! ### Per-step lemmas about the main loop -/

theorem countSms_append (k : SmsKind) (a b : List Event) :
    countSms k (a ++ b) = countSms k a + countSms k b := by
  simp [countSms, List.filter_append]

theorem loopStep_ready_mono (env : LoopEnv) (s : SysState) (h : s.moduleReady = true) :
    (loopStep env s).1.moduleReady = true := by
  unfold loopStep
  rw [if_neg (by simp [h])]
  split
  · simp [pollStep, validFixStep, invalidFixStep, httpPhase, onGpsDataEvents]
    split_ifs <;> simp [h]
  · exact h

theorem loopStep_boot_mono (env : LoopEnv) (s : SysState) (h : s.smsSentBoot = true) :
    (loopStep env s).1.smsSentBoot = true := by
  unfold loopStep
  split
  · simp [tryWakeModule, wakeSuccess, wakeFailure]
    split_ifs <;> simp_all
  · split
    · simp [pollStep, validFixStep, invalidFixStep, httpPhase, onGpsDataEvents]
      split_ifs <;> simp_all
    · exact h

theorem loopStep_start_mono (env : LoopEnv) (s : SysState) (h : s.smsSentStart = true) :
    (loopStep env s).1.smsSentStart = true := by
  unfold loopStep
  split
  · simp [tryWakeModule, wakeSuccess, wakeFailure]
    split_ifs <;> simp_all
  · split
    · simp [pollStep, validFixStep, invalidFixStep, httpPhase, onGpsDataEvents]
      split_ifs <;> simp_all
    · exact h

theorem loopStep_fix_mono (env : LoopEnv) (s : SysState) (h : s.smsSentFix = true) :
    (loopStep env s).1.smsSentFix = true := by
  unfold loopStep
  split
  · simp [tryWakeModule, wakeSuccess, wakeFailure]
    split_ifs <;> simp [h]
  · split
    · simp [pollStep, validFixStep, invalidFixStep, httpPhase, onGpsDataEvents]
      split_ifs <;> simp_all
    · exact h

theorem loopStep_lastPoll (env : LoopEnv) (s : SysState) (hr : s.moduleReady = true)
    (hp : POLL_INTERVAL ≤ env.millis - s.lastPollTime) :
    (loopStep env s).1.lastPollTime = env.millis := by
  unfold loopStep
  rw [if_neg (by simp [hr]), if_pos (by simpa using hp)]
  simp [pollStep, validFixStep, invalidFixStep, httpPhase, onGpsDataEvents]
  split_ifs <;> simp_all

theorem countFix_one (env : LoopEnv) (s : SysState) (hr : s.moduleReady = true)
    (hp : POLL_INTERVAL ≤ env.millis - s.lastPollTime)
    (hv : (parseCgpsInfo env.cgpsRaw).valid = true)
    (hf : s.smsSentFix = false) :
    countSms SmsKind.firstFix (loopStep env s).2 = 1 ∧
      Event.sms SmsKind.firstFix env.smsOk ∈ (loopStep env s).2 ∧
      (loopStep env s).1.smsSentFix = true := by
  unfold loopStep
  rw [if_neg (by simp [hr]), if_pos (by simpa using hp)]
  simp [pollStep, validFixStep, invalidFixStep, httpPhase, onGpsDataEvents, hv, hf, countSms]
  split_ifs <;> simp_all [countSms]

theorem countFix_zero (env : LoopEnv) (s : SysState) (h : s.smsSentFix = true) :
    countSms SmsKind.firstFix (loopStep env s).2 = 0 := by
  unfold loopStep
  split
  · simp [tryWakeModule, wakeSuccess, wakeFailure, countSms]
    split_ifs <;> simp_all [countSms]
  · split
    · simp [pollStep, validFixStep, invalidFixStep, httpPhase, onGpsDataEvents, countSms]
      split_ifs <;> simp_all [countSms]
    · simp [countSms]

theorem countBoot_one (env : LoopEnv) (s : SysState) (hr : s.moduleReady = false)
    (hg : MODULE_RETRY_DELAY ≤ env.millis - s.lastRetryTime)
    (hg2 : env.millis - s.lastRetryTime < UINT32_MOD)
    (hok : containsSub okToken env.atRaw = true)
    (hb : s.smsSentBoot = false) :
    countSms SmsKind.boot (loopStep env s).2 = 1 ∧
      Event.sms SmsKind.boot env.smsOk ∈ (loopStep env s).2 ∧
      (loopStep env s).1.smsSentBoot = true ∧
      (loopStep env s).1.moduleReady = true := by
  unfold loopStep
  rw [if_pos (by simp [hr])]
  unfold tryWakeModule
  rw [if_neg (by
    rw [show (MODULE_RETRY_DELAY : Int) = 2000 from rfl] at hg ⊢
    rw [show (UINT32_MOD : Int) = 4294967296 from rfl] at hg2 ⊢
    omega)]
  simp [wakeSuccess, hok, hb, countSms]
  split_ifs <;> simp_all [countSms]

theorem countBoot_zero (env : LoopEnv) (s : SysState) (h : s.smsSentBoot = true) :
    countSms SmsKind.boot (loopStep env s).2 = 0 := by
  unfold loopStep
  split
  · simp [tryWakeModule, wakeSuccess, wakeFailure, countSms]
    split_ifs <;> simp_all [countSms]
  · split
    · simp [pollStep, validFixStep, invalidFixStep, httpPhase, onGpsDataEvents, countSms]
      split_ifs <;> simp_all [countSms]
    · simp [countSms]

theorem countSat_one (env : LoopEnv) (s : SysState) (hr : s.moduleReady = true)
    (hp : POLL_INTERVAL ≤ env.millis - s.lastPollTime)
    (hv : (parseCgpsInfo env.cgpsRaw).valid = false)
    (hs : 0 < satCountOfRaw env.cgnssRaw)
    (hf : s.smsSentStart = false) :
    countSms SmsKind.firstSat (loopStep env s).2 = 1 ∧
      Event.sms SmsKind.firstSat env.smsOk ∈ (loopStep env s).2 ∧
      (loopStep env s).1.smsSentStart = true := by
  unfold loopStep
  rw [if_neg (by simp [hr]), if_pos (by simpa using hp)]
  simp [pollStep, validFixStep, invalidFixStep, httpPhase, onGpsDataEvents, hv, hf, hs, countSms]

theorem countSat_zero (env : LoopEnv) (s : SysState) (h : s.smsSentStart = true) :
    countSms SmsKind.firstSat (loopStep env s).2 = 0 := by
  unfold loopStep
  split
  · simp [tryWakeModule, wakeSuccess, wakeFailure, countSms]
    split_ifs <;> simp_all [countSms]
  · split
    · simp [pollStep, validFixStep, invalidFixStep, httpPhase, onGpsDataEvents, countSms]
      split_ifs <;> simp_all [countSms]
    · simp [countSms]

theorem countPeriodic_step (env : LoopEnv) (s : SysState) (hr : s.moduleReady = true)
    (hp : POLL_INTERVAL ≤ env.millis - s.lastPollTime)
    (hv : (parseCgpsInfo env.cgpsRaw).valid = true) :
    countSms SmsKind.periodic (loopStep env s).2 =
      (if (s.fixCount + 1) % SMS_FIX_INTERVAL = 0 then 1 else 0) ∧
      (loopStep env s).1.fixCount = s.fixCount + 1 := by
  unfold loopStep
  rw [if_neg (by simp [hr]), if_pos (by simpa using hp)]
  simp [pollStep, validFixStep, invalidFixStep, httpPhase, onGpsDataEvents, hv, countSms]
  split_ifs <;> simp_all [countSms]

theorem loopStep_events_valid (env : LoopEnv) (s : SysState) :
    ∀ ev ∈ (loopStep env s).2,
      (∀ g, ev = Event.gpsData g → g.valid = true) ∧
      (∀ g ok, ev = Event.httpPosted g ok → g.valid = true) := by
  intro ev hev
  refine ⟨?_, ?_⟩
  · intro g hg
    subst hg
    unfold loopStep at hev
    split at hev
    · simp [tryWakeModule, wakeSuccess, wakeFailure] at hev
      split_ifs at hev <;> simp_all
    · split at hev
      · simp [pollStep, validFixStep, invalidFixStep, httpPhase, onGpsDataEvents] at hev
        split_ifs at hev <;> simp_all
      · simp at hev
  · intro g ok hg
    subst hg
    unfold loopStep at hev
    split at hev
    · simp [tryWakeModule, wakeSuccess, wakeFailure] at hev
      split_ifs at hev <;> simp_all
    · split at hev
      · simp [pollStep, validFixStep, invalidFixStep, httpPhase, onGpsDataEvents] at hev
        split_ifs at hev <;> simp_all
      · simp at hev

/-! ### Claim theorems -/

/-- C1: the `PositionFix` returned by `parseCgpsInfo` has its validity
flag true iff the response contains the `+CGPSINFO` marker, the marked
line splits into at least 9 comma-separated fields (at least 8 commas),
and the first (latitude) field is non-empty; whenever the flag is false,
every numeric field of the returned fix is zero and both string fields
are empty; an all-empty 9-field response yields the invalid all-default
fix. -/
theorem parseCgpsInfo_validity (raw : List Char) :
    ((parseCgpsInfo raw).valid = true ↔
      ∃ st, findSub cgpsMarker raw = some st ∧
        8 ≤ (cgpsPayload raw st).count ',' ∧
        trimChars ((cgpsPayload raw st).takeWhile (· ≠ ',')) ≠ []) ∧
    ((parseCgpsInfo raw).valid = false →
      (parseCgpsInfo raw).latitude = 0 ∧ (parseCgpsInfo raw).longitude = 0 ∧
      (parseCgpsInfo raw).altitude = 0 ∧ (parseCgpsInfo raw).speedKnots = 0 ∧
      (parseCgpsInfo raw).course = 0 ∧ (parseCgpsInfo raw).date = [] ∧
      (parseCgpsInfo raw).utcTime = []) ∧
    parseCgpsInfo ("+CGPSINFO:,,,,,,,,".data) = gpsDefault := by
  refine ⟨?_, ?_, by decide⟩
  · cases hf : findSub cgpsMarker raw with
    | none =>
      rw [parseCgpsInfo_none raw hf]
      simp [gpsDefault, hf]
    | some st =>
      rw [parseCgpsInfo_step raw st hf]
      have hne := splitCommaCap_ne_nil 8 (cgpsPayload raw st)
      cases hsp : splitCommaCap 9 (cgpsPayload raw st) with
      | nil => exact absurd hsp hne
      | cons f fs =>
        have hlen := splitCommaCap_length 8 (cgpsPayload raw st)
        rw [hsp] at hlen
        simp only [List.length_cons] at hlen
        norm_num at hlen
        have hhd := splitCommaCap_headD 8 (cgpsPayload raw st)
        rw [hsp] at hhd
        simp only [List.headD_cons] at hhd
        have hfld : cgpsFields raw st = trimChars f :: fs.map trimChars := by
          simp [cgpsFields, hsp]
        by_cases h9 : (8 : Nat) ≤ (cgpsPayload raw st).count ','
        · by_cases h0 : trimChars f = []
          · rw [if_pos (by simp [hfld, h0])]
            simp only [gpsDefault]
            constructor
            · intro h
              exact absurd h (by simp)
            · rintro ⟨st2, hst2, hc2, ht2⟩
              injection hst2 with he
              subst he
              rw [← hhd] at ht2
              exact absurd h0 ht2
          · rw [if_neg (by simp [hfld, h0]; omega)]
            constructor
            · intro _
              exact ⟨st, rfl, h9, by rw [← hhd]; exact h0⟩
            · intro _
              rfl
        · rw [if_pos (by simp [hfld]; omega)]
          simp only [gpsDefault]
          constructor
          · intro h
            exact absurd h (by simp)
          · rintro ⟨st2, hst2, hc2, _⟩
            injection hst2 with he
            subst he
            exact absurd hc2 h9
  · intro hfalse
    cases hf : findSub cgpsMarker raw with
    | none =>
      rw [parseCgpsInfo_none raw hf]
      simp [gpsDefault]
    | some st =>
      rw [parseCgpsInfo_step raw st hf] at hfalse ⊢
      by_cases hC : ((cgpsFields raw st).length < 9 || ((cgpsFields raw st).headD []).isEmpty) = true
      · rw [if_pos hC]
        simp [gpsDefault]
      · rw [if_neg hC] at hfalse
        simp [cgpsBuild] at hfalse

/-- C1 witness: the theorem applied to a concrete invalid response. -/
theorem parseCgpsInfo_validity_witness :
    (parseCgpsInfo "garbage".data).latitude = 0 ∧
      (parseCgpsInfo "garbage".data).date = [] :=
  ⟨((parseCgpsInfo_validity "garbage".data).2.1 (by decide)).1,
    ((parseCgpsInfo_validity "garbage".data).2.1 (by decide)).2.2.2.2.2.1⟩

/-- C2: the `getSatelliteCount` parser returns `-1` when the
`+CGNSSINFO` marker is absent or the marked payload has fewer than 2
comma-separated fields (no comma); `0` when field 0 (fix mode) or
field 1 (satellite count) is empty; otherwise the integer parse of
field 1 (so a field 1 of `"7"` yields 7); the `-1` and `0` sentinels
arise from distinct cases. -/
theorem satCount_sentinels (raw : List Char) :
    (findSub cgnssMarker raw = none → satCountOfRaw raw = -1) ∧
    (∀ idx, findSub cgnssMarker raw = some idx →
      ((cgnssPayload raw idx).count ',' = 0 → satCountOfRaw raw = -1) ∧
      (1 ≤ (cgnssPayload raw idx).count ',' →
        (trimChars ((cgnssPayload raw idx).takeWhile (· ≠ ',')) = [] ∨
            trimChars ((((cgnssPayload raw idx).dropWhile (· ≠ ',')).drop 1).takeWhile (· ≠ ',')) = [] →
          satCountOfRaw raw = 0) ∧
        (trimChars ((cgnssPayload raw idx).takeWhile (· ≠ ',')) ≠ [] →
          trimChars ((((cgnssPayload raw idx).dropWhile (· ≠ ',')).drop 1).takeWhile (· ≠ ',')) ≠ [] →
          satCountOfRaw raw =
            parseIntZ (trimChars ((((cgnssPayload raw idx).dropWhile (· ≠ ',')).drop 1).takeWhile (· ≠ ',')))))) ∧
    satCountOfRaw "+CGNSSINFO: 2,7,,,,".data = 7 ∧
    satCountOfRaw "noise".data = -1 ∧
    satCountOfRaw "+CGNSSINFO: ,,,,,".data = 0 := by
  refine ⟨fun hf => satCountOfRaw_none raw hf, ?_, by decide, by decide, by decide⟩
  intro idx hf
  have hstep := satCountOfRaw_step raw idx hf
  constructor
  · intro hc0
    rw [hstep, if_pos]
    have hl := splitCommaCap_length 5 (cgnssPayload raw idx)
    norm_num at hl
    simp [cgnssFields, hl, hc0]
  · intro hc1
    obtain ⟨fs, hsp⟩ := splitCommaCap_two 4 (cgnssPayload raw idx) hc1
    norm_num at hsp
    have hfld : cgnssFields raw idx =
        trimChars ((cgnssPayload raw idx).takeWhile (· ≠ ',')) ::
          trimChars ((((cgnssPayload raw idx).dropWhile (· ≠ ',')).drop 1).takeWhile (· ≠ ',')) ::
          fs.map trimChars := by
      simp [cgnssFields, hsp]
    constructor
    · rintro (h0 | h1)
      · rw [hstep, if_neg (by simp [hfld]), if_pos (by simp_all)]
      · by_cases h0 : trimChars ((cgnssPayload raw idx).takeWhile (· ≠ ',')) = []
        · rw [hstep, if_neg (by simp [hfld]), if_pos (by simp_all)]
        · rw [hstep, if_neg (by simp [hfld]), if_neg (by simp_all),
            if_pos (by simp_all)]
    · intro h0 h1
      rw [hstep, if_neg (by simp [hfld]), if_neg (by simp_all),
        if_neg (by simp_all)]
      simp [hfld]

/-- C2 witness: the theorem applied to a concrete marker-free response. -/
theorem satCount_sentinels_witness : satCountOfRaw "noise".data = -1 :=
  (satCount_sentinels "noise".data).1 (by decide)

/-- C3: for every valid position response whose raw latitude/longitude
fields are unsigned (as the `DDDMM.mmmmmm` format prescribes), the stored
latitude equals `wholeDegrees + (rawValue - wholeDegrees*100)/60` with
`wholeDegrees = floor(rawValue/100)`, negated exactly when the hemisphere
field is `"S"`; the same transform applies to longitude with negation on
`"W"`; raw value `1015.471638` with hemisphere `N` converts to within
`10^-6` of `10.257861` decimal degrees. -/
theorem coord_conversion (raw : List Char) (st : Nat)
    (hf : findSub cgpsMarker raw = some st)
    (hv : (parseCgpsInfo raw).valid = true)
    (hlat : ¬((cgpsFields raw st).getD 0 []).head? = some '-')
    (hlon : ¬((cgpsFields raw st).getD 2 []).head? = some '-') :
    (parseCgpsInfo raw).latitude =
      (if (cgpsFields raw st).getD 1 [] = ['S'] then
        -((⌊parseFloatQ ((cgpsFields raw st).getD 0 []) / 100⌋ : ℚ) +
          (parseFloatQ ((cgpsFields raw st).getD 0 []) -
            (⌊parseFloatQ ((cgpsFields raw st).getD 0 []) / 100⌋ : ℚ) * 100) / 60)
      else
        (⌊parseFloatQ ((cgpsFields raw st).getD 0 []) / 100⌋ : ℚ) +
          (parseFloatQ ((cgpsFields raw st).getD 0 []) -
            (⌊parseFloatQ ((cgpsFields raw st).getD 0 []) / 100⌋ : ℚ) * 100) / 60) ∧
    (parseCgpsInfo raw).longitude =
      (if (cgpsFields raw st).getD 3 [] = ['W'] then
        -((⌊parseFloatQ ((cgpsFields raw st).getD 2 []) / 100⌋ : ℚ) +
          (parseFloatQ ((cgpsFields raw st).getD 2 []) -
            (⌊parseFloatQ ((cgpsFields raw st).getD 2 []) / 100⌋ : ℚ) * 100) / 60)
      else
        (⌊parseFloatQ ((cgpsFields raw st).getD 2 []) / 100⌋ : ℚ) +
          (parseFloatQ ((cgpsFields raw st).getD 2 []) -
            (⌊parseFloatQ ((cgpsFields raw st).getD 2 []) / 100⌋ : ℚ) * 100) / 60) ∧
    |(parseCgpsInfo "+CGPSINFO: 1015.471638,N,12041.123456,E,170226,094617.0,71.3,2.08,0.0".data).latitude
        - 10257861 / 1000000| < 1 / 1000000 := by
  have hbuild : parseCgpsInfo raw = cgpsBuild raw st := by
    rw [parseCgpsInfo_step raw st hf]
    by_cases hC : ((cgpsFields raw st).length < 9 || ((cgpsFields raw st).headD []).isEmpty) = true
    · rw [parseCgpsInfo_step raw st hf, if_pos hC] at hv
      simp [gpsDefault] at hv
    · rw [if_neg hC]
  have htrLat : truncQ (parseFloatQ ((cgpsFields raw st).getD 0 []) / 100) =
      ⌊parseFloatQ ((cgpsFields raw st).getD 0 []) / 100⌋ :=
    truncQ_eq_floor _ (div_nonneg (parseFloatQ_nonneg _ hlat) (by norm_num))
  have htrLon : truncQ (parseFloatQ ((cgpsFields raw st).getD 2 []) / 100) =
      ⌊parseFloatQ ((cgpsFields raw st).getD 2 []) / 100⌋ :=
    truncQ_eq_floor _ (div_nonneg (parseFloatQ_nonneg _ hlon) (by norm_num))
  refine ⟨?_, ?_, ?_⟩
  · rw [hbuild]
    simp only [cgpsBuild, htrLat]
  · rw [hbuild]
    simp only [cgpsBuild, htrLon]
  · have hf0 : findSub cgpsMarker
        ("+CGPSINFO: 1015.471638,N,12041.123456,E,170226,094617.0,71.3,2.08,0.0".data) = some 0 := by
      decide
    rw [parseCgpsInfo_step _ 0 hf0, if_neg (by decide)]
    have h0 : (cgpsFields ("+CGPSINFO: 1015.471638,N,12041.123456,E,170226,094617.0,71.3,2.08,0.0".data) 0).getD 0 []
        = "1015.471638".data := by decide
    have h1 : (cgpsFields ("+CGPSINFO: 1015.471638,N,12041.123456,E,170226,094617.0,71.3,2.08,0.0".data) 0).getD 1 []
        = ['N'] := by decide
    have hpf : parseFloatQ ("1015.471638".data) = 1015 + 471638 / 10 ^ 6 := by
      have hi : floatIntDigits ("1015.471638".data) = "1015".data := by decide
      have hfr : floatFracDigits ("1015.471638".data) = "471638".data := by decide
      have hneg : floatNeg ("1015.471638".data) = false := by decide
      have hn1 : natOfDigits ("1015".data) = 1015 := by decide
      have hn2 : natOfDigits ("471638".data) = 471638 := by decide
      have hl6 : ("471638".data).length = 6 := by decide
      simp only [parseFloatQ, hi, hfr, hneg, hn1, hn2, hl6]
      norm_num
    have htr : truncQ (parseFloatQ ("1015.471638".data) / 100) = 10 := by
      rw [truncQ_eq_floor _ (by rw [hpf]; positivity), hpf]
      rw [Int.floor_eq_iff]
      constructor <;> norm_num
    simp only [cgpsBuild, h0, h1]
    rw [if_neg (by decide), htr, hpf]
    rw [abs_sub_lt_iff]
    constructor <;> norm_num

/-- C3 witness: the conversion theorem applied to the concrete example
response. -/
theorem coord_conversion_witness :
    |(parseCgpsInfo "+CGPSINFO: 1015.471638,N,12041.123456,E,170226,094617.0,71.3,2.08,0.0".data).latitude
        - 10257861 / 1000000| < 1 / 1000000 :=
  (coord_conversion
    ("+CGPSINFO: 1015.471638,N,12041.123456,E,170226,094617.0,71.3,2.08,0.0".data) 0
    (by decide) (by decide) (by decide) (by decide)).2.2

/-- C5: in every reachable state of the main loop, the `onGpsData` hook
and the HTTP posting logic are invoked only with a fix whose validity
flag is true; an invalid fix is never forwarded. -/
theorem valid_only_forwarding (envs : List LoopEnv) (s : SysState) :
    ∀ g ok,
      (Event.gpsData g ∈ (runLoop envs s).2 → g.valid = true) ∧
      (Event.httpPosted g ok ∈ (runLoop envs s).2 → g.valid = true) := by
  induction envs generalizing s with
  | nil =>
    intro g ok
    constructor <;> intro h <;> simp [runLoop] at h
  | cons e rest ih =>
    intro g ok
    constructor
    · intro h
      rcases List.mem_append.mp (by simpa [runLoop] using h) with h1 | h2
      · exact (loopStep_events_valid e s _ h1).1 g rfl
      · exact (ih (loopStep e s).1 g ok).1 h2
    · intro h
      rcases List.mem_append.mp (by simpa [runLoop] using h) with h1 | h2
      · exact (loopStep_events_valid e s _ h1).2 g ok rfl
      · exact (ih (loopStep e s).1 g ok).2 h2

/-- C5 witness: a concrete one-iteration run whose `onGpsData` event is
certified valid by the theorem. -/
theorem valid_only_forwarding_witness :
    (parseCgpsInfo "+CGPSINFO: 1015.471638,N,12041.123456,E,170226,094617.0,71.3,2.08,0.0".data).valid
      = true :=
  (valid_only_forwarding
      [{ millis := 0, atRaw := [],
         cgpsRaw := "+CGPSINFO: 1015.471638,N,12041.123456,E,170226,094617.0,71.3,2.08,0.0".data,
         cgnssRaw := [], smsOk := false, httpInitOk := false, httpPostOk := false }]
      { initState with moduleReady := true }
      (parseCgpsInfo "+CGPSINFO: 1015.471638,N,12041.123456,E,170226,094617.0,71.3,2.08,0.0".data)
      true).1
    (List.Mem.tail _ (List.Mem.head _))

/-- C4: each one-time notification flag (boot, first satellite, first
fix) is never reset while true (per-step monotonicity), and over any
sequence of 5 consecutive valid fixes the first-fix notification is
attempted exactly once, on the first valid fix only. -/
theorem one_time_triggers :
    (∀ env s, ((s : SysState).smsSentBoot = true → (loopStep env s).1.smsSentBoot = true) ∧
      (s.smsSentStart = true → (loopStep env s).1.smsSentStart = true) ∧
      (s.smsSentFix = true → (loopStep env s).1.smsSentFix = true)) ∧
    (∀ (e1 e2 e3 e4 e5 : LoopEnv) (s : SysState),
      s.moduleReady = true → s.smsSentFix = false →
      POLL_INTERVAL ≤ e1.millis - s.lastPollTime →
      (parseCgpsInfo e1.cgpsRaw).valid = true →
      (parseCgpsInfo e2.cgpsRaw).valid = true →
      (parseCgpsInfo e3.cgpsRaw).valid = true →
      (parseCgpsInfo e4.cgpsRaw).valid = true →
      (parseCgpsInfo e5.cgpsRaw).valid = true →
      countSms SmsKind.firstFix (runLoop [e1, e2, e3, e4, e5] s).2 = 1 ∧
      countSms SmsKind.firstFix (loopStep e1 s).2 = 1) := by
  constructor
  · intro env s
    exact ⟨loopStep_boot_mono env s, loopStep_start_mono env s, loopStep_fix_mono env s⟩
  · intro e1 e2 e3 e4 e5 s hr hff hp1 hv1 hv2 hv3 hv4 hv5
    have h1 := countFix_one e1 s hr hp1 hv1 hff
    have hflag1 : (loopStep e1 s).1.smsSentFix = true := h1.2.2
    have hflag2 := loopStep_fix_mono e2 (loopStep e1 s).1 hflag1
    have hflag3 := loopStep_fix_mono e3 _ hflag2
    have hflag4 := loopStep_fix_mono e4 _ hflag3
    have hz2 := countFix_zero e2 (loopStep e1 s).1 hflag1
    have hz3 := countFix_zero e3 _ hflag2
    have hz4 := countFix_zero e4 _ hflag3
    have hz5 := countFix_zero e5 _ hflag4
    refine ⟨?_, h1.1⟩
    simp only [runLoop, countSms_append]
    rw [h1.1, hz2, hz3, hz4, hz5]
    simp [countSms]

/-- C4 witness: 5 consecutive valid fixes from a ready state with the
first-fix flag clear, each poll 5 seconds apart. -/
theorem one_time_triggers_witness :
    countSms SmsKind.firstFix
      (runLoop
        [{ millis := 0, atRaw := [],
           cgpsRaw := "+CGPSINFO: 1015.471638,N,12041.123456,E,170226,094617.0,71.3,2.08,0.0".data,
           cgnssRaw := [], smsOk := false, httpInitOk := false, httpPostOk := false },
         { millis := 5000, atRaw := [],
           cgpsRaw := "+CGPSINFO: 1015.471638,N,12041.123456,E,170226,094617.0,71.3,2.08,0.0".data,
           cgnssRaw := [], smsOk := false, httpInitOk := false, httpPostOk := false },
         { millis := 10000, atRaw := [],
           cgpsRaw := "+CGPSINFO: 1015.471638,N,12041.123456,E,170226,094617.0,71.3,2.08,0.0".data,
           cgnssRaw := [], smsOk := false, httpInitOk := false, httpPostOk := false },
         { millis := 15000, atRaw := [],
           cgpsRaw := "+CGPSINFO: 1015.471638,N,12041.123456,E,170226,094617.0,71.3,2.08,0.0".data,
           cgnssRaw := [], smsOk := false, httpInitOk := false, httpPostOk := false },
         { millis := 20000, atRaw := [],
           cgpsRaw := "+CGPSINFO: 1015.471638,N,12041.123456,E,170226,094617.0,71.3,2.08,0.0".data,
           cgnssRaw := [], smsOk := false, httpInitOk := false, httpPostOk := false }]
        { initState with moduleReady := true }).2 = 1 :=
  (one_time_triggers.2 _ _ _ _ _ { initState with moduleReady := true }
    (by decide) (by decide) (by decide) (by decide) (by decide) (by decide)
    (by decide) (by decide)).1

/-- C8: with the periodic interval configured to 5, the periodic SMS in
`onGpsData` fires exactly on valid-fix counts divisible by 5, where the
fix count is incremented before `onGpsData` runs. -/
theorem periodic_sms_interval (env : LoopEnv) (s : SysState)
    (hr : s.moduleReady = true)
    (hp : POLL_INTERVAL ≤ env.millis - s.lastPollTime)
    (hv : (parseCgpsInfo env.cgpsRaw).valid = true) :
    (loopStep env s).1.fixCount = s.fixCount + 1 ∧
    countSms SmsKind.periodic (loopStep env s).2 =
      (if (s.fixCount + 1) % 5 = 0 then 1 else 0) := by
  have h := countPeriodic_step env s hr hp hv
  exact ⟨h.2, by simpa [SMS_FIX_INTERVAL] using h.1⟩

/-- C8 witness: the 5th valid fix fires the periodic SMS. -/
theorem periodic_sms_interval_witness :
    (loopStep
        { millis := 0, atRaw := [],
          cgpsRaw := "+CGPSINFO: 1015.471638,N,12041.123456,E,170226,094617.0,71.3,2.08,0.0".data,
          cgnssRaw := [], smsOk := false, httpInitOk := false, httpPostOk := false }
        { initState with moduleReady := true, fixCount := 4 }).1.fixCount = 5 ∧
    countSms SmsKind.periodic
      (loopStep
        { millis := 0, atRaw := [],
          cgpsRaw := "+CGPSINFO: 1015.471638,N,12041.123456,E,170226,094617.0,71.3,2.08,0.0".data,
          cgnssRaw := [], smsOk := false, httpInitOk := false, httpPostOk := false }
        { initState with moduleReady := true, fixCount := 4 }).2 = 1 := by
  have h := periodic_sms_interval
    { millis := 0, atRaw := [],
      cgpsRaw := "+CGPSINFO: 1015.471638,N,12041.123456,E,170226,094617.0,71.3,2.08,0.0".data,
      cgnssRaw := [], smsOk := false, httpInitOk := false, httpPostOk := false }
    { initState with moduleReady := true, fixCount := 4 }
    (by decide) (by decide) (by decide)
  exact ⟨h.1, by rw [h.2]; decide⟩

/-- C10: each one-time flag is set right after the single SMS attempt
regardless of the `sendSMS` outcome (the environment's `smsOk` is
unconstrained and the recorded attempt carries it verbatim), and once a
flag is true that trigger site never attempts again in the same power
cycle. -/
theorem oneTime_sms_ignores_result :
    (∀ env s, (s : SysState).moduleReady = false →
      MODULE_RETRY_DELAY ≤ env.millis - s.lastRetryTime →
      env.millis - s.lastRetryTime < UINT32_MOD →
      containsSub okToken env.atRaw = true → s.smsSentBoot = false →
      Event.sms SmsKind.boot env.smsOk ∈ (loopStep env s).2 ∧
        (loopStep env s).1.smsSentBoot = true) ∧
    (∀ env s, (s : SysState).moduleReady = true →
      POLL_INTERVAL ≤ env.millis - s.lastPollTime →
      (parseCgpsInfo env.cgpsRaw).valid = false →
      0 < satCountOfRaw env.cgnssRaw → s.smsSentStart = false →
      Event.sms SmsKind.firstSat env.smsOk ∈ (loopStep env s).2 ∧
        (loopStep env s).1.smsSentStart = true) ∧
    (∀ env s, (s : SysState).moduleReady = true →
      POLL_INTERVAL ≤ env.millis - s.lastPollTime →
      (parseCgpsInfo env.cgpsRaw).valid = true → s.smsSentFix = false →
      Event.sms SmsKind.firstFix env.smsOk ∈ (loopStep env s).2 ∧
        (loopStep env s).1.smsSentFix = true) ∧
    (∀ env s, (s : SysState).smsSentBoot = true →
      countSms SmsKind.boot (loopStep env s).2 = 0) ∧
    (∀ env s, (s : SysState).smsSentStart = true →
      countSms SmsKind.firstSat (loopStep env s).2 = 0) ∧
    (∀ env s, (s : SysState).smsSentFix = true →
      countSms SmsKind.firstFix (loopStep env s).2 = 0) := by
  refine ⟨?_, ?_, ?_, ?_, ?_, ?_⟩
  · intro env s h1 h2 h2b h3 h4
    have h := countBoot_one env s h1 h2 h2b h3 h4
    exact ⟨h.2.1, h.2.2.1⟩
  · intro env s h1 h2 h3 h4 h5
    have h := countSat_one env s h1 h2 h3 h4 h5
    exact ⟨h.2.1, h.2.2⟩
  · intro env s h1 h2 h3 h4
    have h := countFix_one env s h1 h2 h3 h4
    exact ⟨h.2.1, h.2.2⟩
  · exact fun env s h => countBoot_zero env s h
  · exact fun env s h => countSat_zero env s h
  · exact fun env s h => countFix_zero env s h

/-- C10 witness: a failed boot SMS (`smsOk = false`) still sets the
boot flag. -/
theorem oneTime_sms_ignores_result_witness :
    Event.sms SmsKind.boot false ∈
      (loopStep
        { millis := 0, atRaw := "OK".data, cgpsRaw := [], cgnssRaw := [],
          smsOk := false, httpInitOk := false, httpPostOk := false } initState).2 ∧
    (loopStep
        { millis := 0, atRaw := "OK".data, cgpsRaw := [], cgnssRaw := [],
          smsOk := false, httpInitOk := false, httpPostOk := false } initState).1.smsSentBoot
      = true :=
  oneTime_sms_ignores_result.1
    { millis := 0, atRaw := "OK".data, cgpsRaw := [], cgnssRaw := [],
      smsOk := false, httpInitOk := false, httpPostOk := false } initState
    (by decide) (by decide) (by decide) (by decide) (by decide)

/-- C6 (code bug): on the probe attempt that reaches
`MODULE_RETRY_MAX = 10` without a positive token, the retry counter does
reset and `lastRetryTime` is set to `millis() + 8000` as the sketch
intends (its log line announces "Retrying every 10 seconds..."), but the
claimed extended-cooldown deferral never happens: the throttle guard
computes `millis() - lastRetryTime` in 32-bit unsigned arithmetic, and
against the future-dated `lastRetryTime` the difference wraps to about
`2^32`, which is not below `MODULE_RETRY_DELAY` — so any probe within
the next 8 seconds (in particular the very next `loop()` iteration) runs
immediately instead of being deferred, and it is counted as attempt 1
with `lastRetryTime` rescheduled from the current time. -/
theorem retry_cooldown_code_bug (env : LoopEnv) (s : SysState)
    (hr : s.moduleReady = false)
    (hg : MODULE_RETRY_DELAY ≤ env.millis - s.lastRetryTime)
    (hg2 : env.millis - s.lastRetryTime < UINT32_MOD)
    (hok : containsSub okToken env.atRaw = false)
    (hmax : MODULE_RETRY_MAX ≤ s.retryCount + 1) :
    loopStep env s = ({ s with retryCount := 0, lastRetryTime := env.millis + 8000 }, []) ∧
    (∀ env2, env.millis ≤ env2.millis → env2.millis < env.millis + 8000 →
      containsSub okToken env2.atRaw = false →
      (loopStep env2 { s with retryCount := 0, lastRetryTime := env.millis + 8000 }).1.retryCount = 1 ∧
      (loopStep env2 { s with retryCount := 0, lastRetryTime := env.millis + 8000 }).1.lastRetryTime = env2.millis) := by
  have hD : (MODULE_RETRY_DELAY : Int) = 2000 := rfl
  have hM : (MODULE_RETRY_MAX : Int) = 10 := rfl
  have hU : (UINT32_MOD : Int) = 4294967296 := rfl
  refine ⟨?_, ?_⟩
  · unfold loopStep
    rw [if_pos (by simp [hr])]
    simp only [tryWakeModule]
    rw [if_neg (by rw [hD, hU]; rw [hD] at hg; rw [hU] at hg2; omega)]
    rw [if_neg (by simp [hok])]
    simp only [wakeFailure]
    rw [if_pos (by simpa using hmax)]
  · intro env2 hge hlt hok2
    unfold loopStep
    rw [if_pos (by simp [hr])]
    simp only [tryWakeModule]
    rw [if_neg (by simp [hD, hU]; omega)]
    rw [if_neg (by simp [hok2])]
    simp only [wakeFailure]
    rw [if_neg (by simp [hM])]
    constructor <;> simp

/-- C6 witness: the 10th consecutive silent probe at `millis() = 100`
stores `lastRetryTime = 8100`, yet a probe at `millis() = 200` — 9.9
seconds before the claimed cooldown expiry — is not throttled: it runs
as attempt 1. -/
theorem retry_cooldown_code_bug_witness :
    loopStep
        { millis := 100, atRaw := [], cgpsRaw := [], cgnssRaw := [],
          smsOk := false, httpInitOk := false, httpPostOk := false }
        { initState with retryCount := 9 } =
      ({ initState with retryCount := 0, lastRetryTime := 8100 }, []) ∧
    (loopStep
        { millis := 200, atRaw := [], cgpsRaw := [], cgnssRaw := [],
          smsOk := false, httpInitOk := false, httpPostOk := false }
        { initState with retryCount := 0, lastRetryTime := 8100 }).1.retryCount = 1 ∧
    (loopStep
        { millis := 200, atRaw := [], cgpsRaw := [], cgnssRaw := [],
          smsOk := false, httpInitOk := false, httpPostOk := false }
        { initState with retryCount := 0, lastRetryTime := 8100 }).1.lastRetryTime = 200 := by
  have h := retry_cooldown_code_bug
    { millis := 100, atRaw := [], cgpsRaw := [], cgnssRaw := [],
      smsOk := false, httpInitOk := false, httpPostOk := false }
    { initState with retryCount := 9 }
    (by decide) (by decide) (by decide) (by decide) (by decide)
  have h2 := h.2
    { millis := 200, atRaw := [], cgpsRaw := [], cgnssRaw := [],
      smsOk := false, httpInitOk := false, httpPostOk := false }
    (by decide) (by decide) (by decide)
  refine ⟨by rw [h.1]; decide, ?_, ?_⟩
  · exact h2.1
  · exact h2.2

/-- C7: in the result-wait phase of `httpPost`, an accumulated response
containing `+HTTPACTION: 1,200` or `+HTTPACTION: 1,201` yields `true`;
a well-formed result token with any other 3-digit status yields `false`
with that status extracted for diagnostics; and if no `+HTTPACTION:`
marker ever accumulates before the result timeout the phase yields
`false` with no code.  All failure classes return the same boolean
`false`. -/
theorem httpAction_classification :
    (∀ resp : List Char,
      containsSub httpAction200 resp = true ∨ containsSub httpAction201 resp = true →
      classifyHttpAction resp = (true, none)) ∧
    (∀ st post : List Char, st.length = 3 →
      (∀ c ∈ st, isDigitCh c = true) → (∀ c ∈ post, isDigitCh c = true) →
      classifyHttpAction (httpAction1 ++ st ++ ',' :: post) =
        (if st = ['2', '0', '0'] ∨ st = ['2', '0', '1'] then (true, none) else (false, some st))) ∧
    (∀ (sched : Nat → List Char) (timeout : Nat),
      containsSub httpActionMarker (accumUntil sched httpActionMarker timeout 0 []) = false →
      httpPostResultPhase sched timeout = (false, none)) := by
  refine ⟨?_, ?_, ?_⟩
  · intro resp h
    unfold classifyHttpAction
    rcases h with h | h <;> rw [if_pos (by simp [h])]
  · intro st post h3 hst hpost
    by_cases h200 : st = ['2', '0', '0']
    · have hc : containsSub httpAction200 (httpAction1 ++ st ++ ',' :: post) = true := by
        rw [show httpAction200 = httpAction1 ++ ['2', '0', '0'] from by decide]
        exact (contains_code_iff ['2', '0', '0'] st post h3 (by decide) (by decide) hst hpost).mpr h200
      unfold classifyHttpAction
      rw [if_pos (Bool.or_eq_true _ _ |>.mpr (Or.inl hc)), if_pos (Or.inl h200)]
    · by_cases h201 : st = ['2', '0', '1']
      · have hc : containsSub httpAction201 (httpAction1 ++ st ++ ',' :: post) = true := by
          rw [show httpAction201 = httpAction1 ++ ['2', '0', '1'] from by decide]
          exact (contains_code_iff ['2', '0', '1'] st post h3 (by decide) (by decide) hst hpost).mpr h201
        unfold classifyHttpAction
        rw [if_pos (Bool.or_eq_true _ _ |>.mpr (Or.inr hc)), if_pos (Or.inr h201)]
      · have hc2 : containsSub httpAction200 (httpAction1 ++ st ++ ',' :: post) = false := by
          rw [show httpAction200 = httpAction1 ++ ['2', '0', '0'] from by decide]
          cases hb : containsSub (httpAction1 ++ ['2', '0', '0']) (httpAction1 ++ st ++ ',' :: post) with
          | false => rfl
          | true =>
            exact absurd
              ((contains_code_iff ['2', '0', '0'] st post h3 (by decide) (by decide) hst hpost).mp hb)
              h200
        have hc3 : containsSub httpAction201 (httpAction1 ++ st ++ ',' :: post) = false := by
          rw [show httpAction201 = httpAction1 ++ ['2', '0', '1'] from by decide]
          cases hb : containsSub (httpAction1 ++ ['2', '0', '1']) (httpAction1 ++ st ++ ',' :: post) with
          | false => rfl
          | true =>
            exact absurd
              ((contains_code_iff ['2', '0', '1'] st post h3 (by decide) (by decide) hst hpost).mp hb)
              h201
        have hfs : findSub httpAction1 (httpAction1 ++ st ++ ',' :: post) = some 0 := by
          rw [List.append_assoc]
          exact findSub_append_left _ _ (by decide)
        have hdrop : List.drop (0 + 15) (httpAction1 ++ st ++ ',' :: post) = st ++ ',' :: post := by
          rw [List.append_assoc, show (0 + 15 : Nat) = httpAction1.length from by decide,
            List.drop_left]
        have htw : (st ++ ',' :: post).takeWhile (· ≠ ',') = st :=
          takeWhile_append_all _ st ',' post
            (fun c hc => decide_eq_true (digit_ne_comma c (hst c hc))) (by decide)
        unfold classifyHttpAction
        rw [if_neg (by rw [hc2, hc3]; decide), hfs]
        rw [if_neg (by simp [h200, h201])]
        simp only [hdrop, htw]
  · intro sched timeout h
    have hsub : ∀ x : List Char,
        containsSub (httpActionMarker ++ x) (accumUntil sched httpActionMarker timeout 0 []) = false := by
      intro x
      cases hb : containsSub (httpActionMarker ++ x) (accumUntil sched httpActionMarker timeout 0 []) with
      | false => rfl
      | true => exact absurd (containsSub_mono _ _ _ hb) (by simp [h])
    have h200 : containsSub httpAction200 (accumUntil sched httpActionMarker timeout 0 []) = false := by
      rw [show httpAction200 = httpActionMarker ++ " 1,200".data from by decide]
      exact hsub _
    have h201 : containsSub httpAction201 (accumUntil sched httpActionMarker timeout 0 []) = false := by
      rw [show httpAction201 = httpActionMarker ++ " 1,201".data from by decide]
      exact hsub _
    have h1 : containsSub httpAction1 (accumUntil sched httpActionMarker timeout 0 []) = false := by
      rw [show httpAction1 = httpActionMarker ++ " 1,".data from by decide]
      exact hsub _
    have hfn : findSub httpAction1 (accumUntil sched httpActionMarker timeout 0 []) = none := by
      cases hfa : findSub httpAction1 (accumUntil sched httpActionMarker timeout 0 []) with
      | none => rfl
      | some v =>
        rw [containsSub, hfa] at h1
        simp at h1
    unfold httpPostResultPhase classifyHttpAction
    rw [if_neg (by simp [h200, h201]), hfn]

/-- C7 witness: a 404 result token is classified as failure with the
code extracted. -/
theorem httpAction_classification_witness :
    classifyHttpAction (httpAction1 ++ ['4', '0', '4'] ++ ',' :: ['0']) = (false, some ['4', '0', '4']) := by
  have h := httpAction_classification.2.1 ['4', '0', '4'] ['0'] (by decide) (by decide) (by decide)
  rw [h]
  decide

/-- C9 (amended): `sendAT` returns an empty response when the overall
timeout elapses with zero bytes received, and a non-empty response
implies bytes arrived; however the accumulated bytes are trimmed before
being returned, so the result is empty exactly when every received byte
is whitespace — a whitespace-only reply also yields the empty "no reply"
result even though bytes were received. -/
theorem sendAT_empty_characterization (sched : Nat → List Char) (timeout silence : Nat) :
    sendATModel sched timeout silence = trimChars (sendATRaw sched timeout silence) ∧
    (sendATModel sched timeout silence = [] ↔
      ∀ c ∈ sendATRaw sched timeout silence, isSpaceCh c = true) ∧
    ((∀ t, t < timeout → sched t = []) →
      sendATRaw sched timeout silence = [] ∧ sendATModel sched timeout silence = []) ∧
    (sendATModel sched timeout silence ≠ [] → ∃ t, t < timeout ∧ sched t ≠ []) := by
  refine ⟨rfl, trimChars_eq_nil_iff _, ?_, ?_⟩
  · intro h
    have hr : sendATRaw sched timeout silence = [] :=
      sendATAux_no_bytes sched silence timeout 0 0 fun u hu1 hu2 => h u (by omega)
    exact ⟨hr, by rw [sendATModel, hr]; rfl⟩
  · intro hne
    by_contra hcon
    push_neg at hcon
    have h0 : ∀ t, t < timeout → sched t = [] := fun t ht => hcon t ht
    have hr : sendATRaw sched timeout silence = [] :=
      sendATAux_no_bytes sched silence timeout 0 0 fun u hu1 hu2 => h0 u (by omega)
    exact hne (by rw [sendATModel, hr]; rfl)

/-- C9 witness: a silent modem yields the empty response. -/
theorem sendAT_empty_characterization_witness :
    sendATRaw (fun _ => []) 5 2 = [] ∧ sendATModel (fun _ => []) 5 2 = [] :=
  (sendAT_empty_characterization (fun _ => []) 5 2).2.2.1 fun _ _ => rfl

/-- C9 counterexample: a reply consisting solely of CRLF is received
(bytes arrive at tick 0, before the 5-tick timeout) yet `sendAT` returns
the empty response, refuting "empty exactly when zero bytes received". -/
theorem sendAT_empty_iff_cex :
    sendATModel (fun t => if t = 0 then ['\r', '\n'] else []) 5 2 = [] ∧
    (fun t => if t = 0 then ['\r', '\n'] else []) 0 ≠ [] ∧ (0 : Nat) < 5 := by
  decide

end GpsTracker
